import Mathlib

/-!
Verification of the core of `vcsgrep` (src/vcsgrep.py): the glob-to-regex
compiler `glob_to_grep_pattern` and the argument classifier (`ArgParser`,
called `classify` in the specification).  The Python source is shallowly
embedded: strings are Lean `String`s manipulated through their `List Char`
data, Python's `ValueError` raised on malformed globs becomes
`Except MalformedGlobError`, and the single left-to-right classification
loop becomes an explicit step function over an explicit state record.
Python sequence indexing (`arg[0]`, `arg[1]`), which can raise `IndexError`,
is embedded as `List.get?` with `Option` propagation, so that totality of
the classifier is a real theorem rather than a byproduct of the embedding.
-/

/-! ## Glob compiler: normalization of `.` path segments

Embeds `re.sub(r'(^|(?<=/))\.(/|$)', '', glob)`: a `.` standing at the
start of the string or right after a `/`, and followed by `/` or the end
of the string, is deleted together with the following `/` (if any).
The boolean argument tracks whether the current scan position is at the
start of the string or right after a `/` of the original string. -/
def normDotSegs : List Char → Bool → List Char
  | [], _ => []
  | ['.'], true => []
  | '.' :: '/' :: rest, true => normDotSegs rest true
  | c :: rest, _ => c :: normDotSegs rest (c = '/')

/-! ## Glob compiler: `re.escape`

Embeds `re.escape` as of Python 3.6 (the behavior the module's doctests
were written against: every character other than ASCII letters, digits and
underscore is escaped; NUL becomes `\000`). -/
def reEscapeChar (c : Char) : List Char :=
  if ('a' ≤ c ∧ c ≤ 'z') ∨ ('A' ≤ c ∧ c ≤ 'Z') ∨ ('0' ≤ c ∧ c ≤ '9') ∨ c = '_' then [c]
  else if c = Char.ofNat 0 then ['\\', '0', '0', '0']
  else ['\\', c]

def reEscape (s : String) : String :=
  String.mk (s.data.map reEscapeChar).flatten

instance {ε α : Type} [DecidableEq ε] [DecidableEq α] : DecidableEq (Except ε α) := fun
  | .ok a, .ok b =>
    if h : a = b then .isTrue (by rw [h]) else .isFalse (by simp [h])
  | .ok _, .error _ => .isFalse (by simp)
  | .error _, .ok _ => .isFalse (by simp)
  | .error a, .error b =>
    if h : a = b then .isTrue (by rw [h]) else .isFalse (by simp [h])

/-! ## Glob compiler: tokenization

Embeds `re.split(r'(\*\*/?|[*?,{}]|\[[^]]+\])', glob2)`: the glob is cut
into literal pieces (even indices of the split, the `lit` constructor)
and delimiter pieces (odd indices, the remaining constructors).  The
delimiters are: `**` optionally followed by `/`, the single characters
`*`, `?`, `,`, `{` (lbrace), `}` (rbrace), and a bracket expression
`[` + one or more non-`]` characters + `]`, kept verbatim. -/
inductive GlobTok where
  | lit (s : String)
  | qmark
  | star
  | dstar (slash : Bool)
  | bracket (piece : String)
  | comma
  | lbrace
  | rbrace
deriving DecidableEq, Repr

/-- Content of a bracket expression: the characters after `[` up to the
first `]` (which must exist and the content must be nonempty, mirroring
the regex `\[[^]]+\]`), together with the remaining characters. -/
def bracketSpan (cs : List Char) : Option (List Char × List Char) :=
  match cs.dropWhile (fun c => !(c == ']')) with
  | [] => none
  | _ :: rest' =>
    let mid := cs.takeWhile (fun c => !(c == ']'))
    if mid.isEmpty then none else some (mid, rest')

/-- Try to match one delimiter of the split regex at the head of `cs`
(alternatives tried in the same order as the regex). -/
def matchDelim : List Char → Option (GlobTok × List Char)
  | [] => none
  | c :: rest =>
    if c = '*' then
      match rest with
      | '*' :: '/' :: rest' => some (.dstar true, rest')
      | '*' :: rest' => some (.dstar false, rest')
      | _ => some (.star, rest)
    else if c = '?' then some (.qmark, rest)
    else if c = ',' then some (.comma, rest)
    else if c = '{' then some (.lbrace, rest)
    else if c = '}' then some (.rbrace, rest)
    else if c = '[' then
      match bracketSpan rest with
      | some (mid, rest') => some (.bracket (String.mk ('[' :: (mid ++ [']']))), rest')
      | none => none
    else none

theorem bracketSpan_shrink {cs mid rest' : List Char}
    (h : bracketSpan cs = some (mid, rest')) : rest'.length < cs.length := by
  unfold bracketSpan at h
  split at h
  · exact absurd h (by simp)
  · next x xs heq =>
    by_cases hm : (cs.takeWhile (fun c => !(c == ']'))).isEmpty
    · simp [hm] at h
    · simp [hm] at h
      obtain ⟨h1, h2⟩ := h
      subst h2
      have hlen := congrArg List.length
        (List.takeWhile_append_dropWhile (p := fun c => !(c == ']')) (l := cs))
      rw [List.length_append, heq] at hlen
      simp at hlen
      omega

theorem matchDelim_shrink {cs : List Char} {t : GlobTok} {rest : List Char}
    (h : matchDelim cs = some (t, rest)) : rest.length < cs.length := by
  match cs with
  | [] => simp [matchDelim] at h
  | c :: cs' =>
    unfold matchDelim at h
    by_cases h1 : c = '*'
    · simp [h1] at h
      split at h <;> simp at h <;> simp [← h.2] <;> omega
    · by_cases h2 : c = '?'
      · simp [h1, h2] at h
        simp [← h.2]
      · by_cases h3 : c = ','
        · simp [h1, h2, h3] at h
          simp [← h.2]
        · by_cases h4 : c = '{'
          · simp [h1, h2, h3, h4] at h
            simp [← h.2]
          · by_cases h5 : c = '}'
            · simp [h1, h2, h3, h4, h5] at h
              simp [← h.2]
            · by_cases h6 : c = '['
              · simp [h1, h2, h3, h4, h5, h6] at h
                split at h
                · next mid rest' heq =>
                  simp at h
                  have := bracketSpan_shrink heq
                  simp [← h.2]
                  omega
                · simp at h
              · simp [h1, h2, h3, h4, h5, h6] at h

/-- The split itself: scan left to right; at each position either a
delimiter matches (emit the pending literal piece and the delimiter) or
one character is shifted into the pending literal piece.  Mirrors the
leftmost-match scanning of `re.split`.  The `fuel` parameter makes the
recursion structural (every step consumes at least one character, so
`fuel = cs.length` always suffices; see `globSplitF_fuel`). -/
def globSplitF : Nat → List Char → List Char → List GlobTok
  | 0, acc, _ => [.lit (String.mk acc)]
  | _ + 1, acc, [] => [.lit (String.mk acc)]
  | fuel + 1, acc, c :: cs =>
    match matchDelim (c :: cs) with
    | some (t, rest) => .lit (String.mk acc) :: t :: globSplitF fuel [] rest
    | none => globSplitF fuel (acc ++ [c]) cs

def globSplit (acc : List Char) (cs : List Char) : List GlobTok :=
  globSplitF cs.length acc cs

/-- Any fuel of at least `cs.length` computes the same split. -/
theorem globSplitF_fuel : ∀ (f g : Nat) (acc cs : List Char), cs.length ≤ f →
    cs.length ≤ g → globSplitF f acc cs = globSplitF g acc cs := by
  intro f
  induction f using Nat.strong_induction_on with
  | _ f ih =>
    intro g acc cs hf hg
    match cs, f, g with
    | [], 0, 0 => rfl
    | [], 0, _ + 1 => rfl
    | [], _ + 1, 0 => rfl
    | [], _ + 1, _ + 1 => rfl
    | _ :: _, 0, _ => simp at hf
    | _ :: _, _ + 1, 0 => simp at hg
    | c :: cs', f' + 1, g' + 1 =>
      simp at hf hg
      cases hm : matchDelim (c :: cs') with
      | some tr =>
        obtain ⟨t, rest⟩ := tr
        have hr := matchDelim_shrink hm
        simp at hr
        simp only [globSplitF, hm]
        rw [ih f' (by omega) g' [] rest (by omega) (by omega)]
      | none =>
        simp only [globSplitF, hm]
        exact ih f' (by omega) g' (acc ++ [c]) cs' (by omega) (by omega)

/-! ## Glob compiler: translation -/

inductive GlobReason where
  | unexpectedClosingBrace
  | unclosedBrace
deriving DecidableEq, Repr

/-- Embeds the `ValueError` raised by `glob_to_grep_pattern`: the message
`invalid glob pattern (unexpected "...") : GLOB` carries a reason
(`unexpected "}"` vs `unclosed "}"`) and the offending original glob. -/
structure MalformedGlobError where
  reason : GlobReason
  glob : String
deriving DecidableEq, Repr

/-- Walk the token list left to right with the brace depth counter,
emitting regex fragments, exactly as the `for` loop of
`glob_to_grep_pattern`: a `}` at depth 0 raises `unexpected "}"`
immediately; a positive depth surviving to the end raises
`unclosed "}"`.  `glob` is the original glob, carried for the error. -/
def translateToks (glob : String) : List GlobTok → Nat → Except MalformedGlobError String
  | [], 0 => .ok ""
  | [], _ + 1 => .error ⟨.unclosedBrace, glob⟩
  | .lit s :: rest, d =>
    match translateToks glob rest d with
    | .ok r => .ok (reEscape s ++ r)
    | .error e => .error e
  | .qmark :: rest, d =>
    match translateToks glob rest d with
    | .ok r => .ok ("." ++ r)
    | .error e => .error e
  | .star :: rest, d =>
    match translateToks glob rest d with
    | .ok r => .ok ("[^/]*" ++ r)
    | .error e => .error e
  | .dstar _ :: rest, d =>
    match translateToks glob rest d with
    | .ok r => .ok (".*" ++ r)
    | .error e => .error e
  | .bracket p :: rest, d =>
    match translateToks glob rest d with
    | .ok r => .ok (p ++ r)
    | .error e => .error e
  | .lbrace :: rest, d =>
    match translateToks glob rest (d + 1) with
    | .ok r => .ok ("(" ++ r)
    | .error e => .error e
  | .comma :: rest, d =>
    match translateToks glob rest d with
    | .ok r => .ok ((if d = 0 then "," else "|") ++ r)
    | .error e => .error e
  | .rbrace :: rest, d =>
    match d with
    | 0 => .error ⟨.unexpectedClosingBrace, glob⟩
    | d' + 1 =>
      match translateToks glob rest d' with
      | .ok r => .ok (")" ++ r)
      | .error e => .error e

/-- Embeds `glob_to_grep_pattern`: normalize `.` segments, return `""` for
an empty result, otherwise tokenize, translate with the brace depth
counter, and wrap in `^` ... `(/|$)`. -/
def glob_to_grep_pattern (glob : String) : Except MalformedGlobError String :=
  let glob2 := String.mk (normDotSegs glob.data true)
  if glob2 = "" then .ok ""
  else
    match translateToks glob (globSplit [] glob2.data) 0 with
    | .ok body => .ok ("^" ++ body ++ "(/|$)")
    | .error e => .error e

example : glob_to_grep_pattern "" = .ok "" := by decide
example : glob_to_grep_pattern "img????.cpp" = .ok "^img....\\.cpp(/|$)" := by decide
example : glob_to_grep_pattern "*.cpp" = .ok "^[^/]*\\.cpp(/|$)" := by decide
example : glob_to_grep_pattern "main.[ch]" = .ok "^main\\.[ch](/|$)" := by decide
example : glob_to_grep_pattern "*.\x7bc,cpp,h\x7d" = .ok "^[^/]*\\.(c|cpp|h)(/|$)" := by decide
example : glob_to_grep_pattern "**/*.[ch]" = .ok "^.*[^/]*\\.[ch](/|$)" := by decide
example : glob_to_grep_pattern "." = .ok "" := by decide
example : glob_to_grep_pattern "./foo/./bar" = .ok "^foo\\/bar(/|$)" := by decide
example : glob_to_grep_pattern "../foo/bar**" = .ok "^\\.\\.\\/foo\\/bar.*(/|$)" := by decide
example : glob_to_grep_pattern "main.\x7b[ch],[ch]pp,*zzz\x7d" =
    .ok "^main\\.([ch]|[ch]pp|[^/]*zzz)(/|$)" := by decide
example : glob_to_grep_pattern "\x7bfoo,ba\x7br,z\x7d\x7d" = .ok "^(foo|ba(r|z))(/|$)" := by
  decide
example : glob_to_grep_pattern "foo\x7bbar" =
    .error ⟨.unclosedBrace, "foo\x7bbar"⟩ := by decide
example : glob_to_grep_pattern "foo\x7bbar\x7d\x7d" =
    .error ⟨.unexpectedClosingBrace, "foo\x7bbar\x7d\x7d"⟩ := by decide

/-! ## Brace consistency, declaratively

`tokDelta`/`deltaSum` count brace opens (+1) and closes (-1) over the
token list; `bracesBalanced toks d` states, following the specification's
words, that starting from depth `d` no prefix ever drives the depth
negative (no unexpected closing brace) and the final depth is zero (no
unclosed brace). -/
def tokDelta : GlobTok → Int
  | .lbrace => 1
  | .rbrace => -1
  | _ => 0

def deltaSum (toks : List GlobTok) : Int := (toks.map tokDelta).sum

@[simp] theorem deltaSum_nil : deltaSum [] = 0 := rfl

@[simp] theorem deltaSum_cons (t : GlobTok) (p : List GlobTok) :
    deltaSum (t :: p) = tokDelta t + deltaSum p := by
  simp [deltaSum]

def bracesBalanced (toks : List GlobTok) (d : Int) : Prop :=
  (∀ p, p <+: toks → 0 ≤ d + deltaSum p) ∧ d + deltaSum toks = 0

theorem prefixBound_cons {t : GlobTok} {rest : List GlobTok} {d : Int} (hd : 0 ≤ d) :
    (∀ p, p <+: t :: rest → 0 ≤ d + deltaSum p) ↔
      (∀ p, p <+: rest → 0 ≤ (d + tokDelta t) + deltaSum p) := by
  constructor
  · intro h p hp
    have := h (t :: p) (List.cons_prefix_cons.mpr ⟨rfl, hp⟩)
    simp at this
    omega
  · intro h p hp
    cases p with
    | nil => simpa using hd
    | cons t' p' =>
      obtain ⟨ht, hp'⟩ := List.cons_prefix_cons.mp hp
      subst ht
      have := h p' hp'
      simp
      omega

theorem bracesBalanced_cons {t : GlobTok} {rest : List GlobTok} {d : Int} (hd : 0 ≤ d) :
    bracesBalanced (t :: rest) d ↔
      0 ≤ d + tokDelta t ∧ bracesBalanced rest (d + tokDelta t) := by
  unfold bracesBalanced
  rw [prefixBound_cons hd]
  constructor
  · rintro ⟨hpre, hsum⟩
    refine ⟨?_, hpre, ?_⟩
    · have := hpre [] List.nil_prefix
      simpa using this
    · simp at hsum
      omega
  · rintro ⟨hge, hpre, hsum⟩
    refine ⟨hpre, ?_⟩
    simp
    omega

theorem translateToks_ok_iff (glob : String) : ∀ (toks : List GlobTok) (d : Nat),
    (∃ r, translateToks glob toks d = .ok r) ↔ bracesBalanced toks (d : Int) := by
  intro toks
  induction toks with
  | nil =>
    intro d
    cases d with
    | zero =>
      simp only [translateToks]
      constructor
      · intro _
        exact ⟨fun p hp => by simp [List.prefix_nil.mp hp], by simp⟩
      · intro _
        exact ⟨"", rfl⟩
    | succ d' =>
      simp only [translateToks]
      constructor
      · rintro ⟨r, hr⟩
        simp at hr
      · rintro ⟨_, hsum⟩
        simp at hsum
        omega
  | cons t rest ih =>
    intro d
    cases t with
    | lit s =>
      have hstep : (∃ r, translateToks glob (GlobTok.lit s :: rest) d = .ok r) ↔
          ∃ r, translateToks glob rest d = .ok r := by
        cases h : translateToks glob rest d <;> simp [translateToks, h]
      rw [hstep, ih d, bracesBalanced_cons (by positivity)]
      simp [tokDelta]
    | qmark =>
      have hstep : (∃ r, translateToks glob (GlobTok.qmark :: rest) d = .ok r) ↔
          ∃ r, translateToks glob rest d = .ok r := by
        cases h : translateToks glob rest d <;> simp [translateToks, h]
      rw [hstep, ih d, bracesBalanced_cons (by positivity)]
      simp [tokDelta]
    | star =>
      have hstep : (∃ r, translateToks glob (GlobTok.star :: rest) d = .ok r) ↔
          ∃ r, translateToks glob rest d = .ok r := by
        cases h : translateToks glob rest d <;> simp [translateToks, h]
      rw [hstep, ih d, bracesBalanced_cons (by positivity)]
      simp [tokDelta]
    | dstar sl =>
      have hstep : (∃ r, translateToks glob (GlobTok.dstar sl :: rest) d = .ok r) ↔
          ∃ r, translateToks glob rest d = .ok r := by
        cases h : translateToks glob rest d <;> simp [translateToks, h]
      rw [hstep, ih d, bracesBalanced_cons (by positivity)]
      simp [tokDelta]
    | bracket p =>
      have hstep : (∃ r, translateToks glob (GlobTok.bracket p :: rest) d = .ok r) ↔
          ∃ r, translateToks glob rest d = .ok r := by
        cases h : translateToks glob rest d <;> simp [translateToks, h]
      rw [hstep, ih d, bracesBalanced_cons (by positivity)]
      simp [tokDelta]
    | comma =>
      have hstep : (∃ r, translateToks glob (GlobTok.comma :: rest) d = .ok r) ↔
          ∃ r, translateToks glob rest d = .ok r := by
        cases h : translateToks glob rest d <;> simp [translateToks, h]
      rw [hstep, ih d, bracesBalanced_cons (by positivity)]
      simp [tokDelta]
    | lbrace =>
      have hstep : (∃ r, translateToks glob (GlobTok.lbrace :: rest) d = .ok r) ↔
          ∃ r, translateToks glob rest (d + 1) = .ok r := by
        cases h : translateToks glob rest (d + 1) <;> simp [translateToks, h]
      rw [hstep, ih (d + 1), bracesBalanced_cons (by positivity)]
      simp [tokDelta]
      intro _
      positivity
    | rbrace =>
      cases d with
      | zero =>
        constructor
        · rintro ⟨r, hr⟩
          simp [translateToks] at hr
        · rw [bracesBalanced_cons (by norm_num)]
          rintro ⟨h1, _⟩
          simp [tokDelta] at h1
      | succ d' =>
        have hstep : (∃ r, translateToks glob (GlobTok.rbrace :: rest) (d' + 1) = .ok r) ↔
            ∃ r, translateToks glob rest d' = .ok r := by
          cases h : translateToks glob rest d' <;> simp [translateToks, h]
        rw [hstep, ih d', bracesBalanced_cons (by positivity)]
        simp [tokDelta]

theorem translateToks_error_glob (glob : String) : ∀ (toks : List GlobTok) (d : Nat)
    (e : MalformedGlobError), translateToks glob toks d = .error e → e.glob = glob := by
  intro toks
  induction toks with
  | nil =>
    intro d e h
    cases d with
    | zero => simp [translateToks] at h
    | succ d' =>
      simp [translateToks] at h
      rw [← h]
  | cons t rest ih =>
    intro d e h
    cases t with
    | lit s =>
      cases hr : translateToks glob rest d with
      | ok r => simp [translateToks, hr] at h
      | error e' =>
        simp [translateToks, hr] at h
        exact h ▸ ih d e' hr
    | qmark =>
      cases hr : translateToks glob rest d with
      | ok r => simp [translateToks, hr] at h
      | error e' =>
        simp [translateToks, hr] at h
        exact h ▸ ih d e' hr
    | star =>
      cases hr : translateToks glob rest d with
      | ok r => simp [translateToks, hr] at h
      | error e' =>
        simp [translateToks, hr] at h
        exact h ▸ ih d e' hr
    | dstar sl =>
      cases hr : translateToks glob rest d with
      | ok r => simp [translateToks, hr] at h
      | error e' =>
        simp [translateToks, hr] at h
        exact h ▸ ih d e' hr
    | bracket p =>
      cases hr : translateToks glob rest d with
      | ok r => simp [translateToks, hr] at h
      | error e' =>
        simp [translateToks, hr] at h
        exact h ▸ ih d e' hr
    | comma =>
      cases hr : translateToks glob rest d with
      | ok r => simp [translateToks, hr] at h
      | error e' =>
        simp [translateToks, hr] at h
        exact h ▸ ih d e' hr
    | lbrace =>
      cases hr : translateToks glob rest (d + 1) with
      | ok r => simp [translateToks, hr] at h
      | error e' =>
        simp [translateToks, hr] at h
        exact h ▸ ih (d + 1) e' hr
    | rbrace =>
      cases d with
      | zero =>
        simp [translateToks] at h
        rw [← h]
      | succ d' =>
        cases hr : translateToks glob rest d' with
        | ok r => simp [translateToks, hr] at h
        | error e' =>
          simp [translateToks, hr] at h
          exact h ▸ ih d' e' hr

theorem translateToks_error_reason (glob : String) : ∀ (toks : List GlobTok) (d : Nat)
    (e : MalformedGlobError), translateToks glob toks d = .error e →
    (e.reason = GlobReason.unclosedBrace ↔ ∀ p, p <+: toks → 0 ≤ (d : Int) + deltaSum p) := by
  intro toks
  induction toks with
  | nil =>
    intro d e h
    cases d with
    | zero => simp [translateToks] at h
    | succ d' =>
      simp [translateToks] at h
      rw [← h]
      simp
      positivity
  | cons t rest ih =>
    intro d e h
    cases t with
    | lit s =>
      cases hr : translateToks glob rest d with
      | ok r => simp [translateToks, hr] at h
      | error e' =>
        simp [translateToks, hr] at h
        subst h
        rw [ih d e' hr, prefixBound_cons (by positivity)]
        simp [tokDelta]
    | qmark =>
      cases hr : translateToks glob rest d with
      | ok r => simp [translateToks, hr] at h
      | error e' =>
        simp [translateToks, hr] at h
        subst h
        rw [ih d e' hr, prefixBound_cons (by positivity)]
        simp [tokDelta]
    | star =>
      cases hr : translateToks glob rest d with
      | ok r => simp [translateToks, hr] at h
      | error e' =>
        simp [translateToks, hr] at h
        subst h
        rw [ih d e' hr, prefixBound_cons (by positivity)]
        simp [tokDelta]
    | dstar sl =>
      cases hr : translateToks glob rest d with
      | ok r => simp [translateToks, hr] at h
      | error e' =>
        simp [translateToks, hr] at h
        subst h
        rw [ih d e' hr, prefixBound_cons (by positivity)]
        simp [tokDelta]
    | bracket p =>
      cases hr : translateToks glob rest d with
      | ok r => simp [translateToks, hr] at h
      | error e' =>
        simp [translateToks, hr] at h
        subst h
        rw [ih d e' hr, prefixBound_cons (by positivity)]
        simp [tokDelta]
    | comma =>
      cases hr : translateToks glob rest d with
      | ok r => simp [translateToks, hr] at h
      | error e' =>
        simp [translateToks, hr] at h
        subst h
        rw [ih d e' hr, prefixBound_cons (by positivity)]
        simp [tokDelta]
    | lbrace =>
      cases hr : translateToks glob rest (d + 1) with
      | ok r => simp [translateToks, hr] at h
      | error e' =>
        simp [translateToks, hr] at h
        subst h
        rw [ih (d + 1) e' hr, prefixBound_cons (by positivity)]
        simp [tokDelta]
    | rbrace =>
      cases d with
      | zero =>
        simp [translateToks] at h
        rw [← h]
        simp
        refine ⟨[GlobTok.rbrace], List.cons_prefix_cons.mpr ⟨rfl, List.nil_prefix⟩, ?_⟩
        simp [tokDelta]
      | succ d' =>
        cases hr : translateToks glob rest d' with
        | ok r => simp [translateToks, hr] at h
        | error e' =>
          simp [translateToks, hr] at h
          subst h
          rw [ih d' e' hr, prefixBound_cons (by positivity)]
          simp [tokDelta]

/-- The token list produced for a glob by `glob_to_grep_pattern` (after
`.`-segment normalization). -/
def globToks (g : String) : List GlobTok := globSplit [] (normDotSegs g.data true)

@[simp] theorem mk_data (l : List Char) : (String.mk l).data = l := rfl

theorem glob_ok_iff (g : String) :
    (∃ r, glob_to_grep_pattern g = .ok r) ↔
      (String.mk (normDotSegs g.data true) = "" ∨ bracesBalanced (globToks g) 0) := by
  by_cases hg : String.mk (normDotSegs g.data true) = ""
  · simp [glob_to_grep_pattern, hg]
  · have h0 := translateToks_ok_iff g (globToks g) 0
    simp only [Nat.cast_zero] at h0
    rw [← h0]
    simp only [glob_to_grep_pattern, mk_data]
    rw [if_neg hg]
    rw [show globSplit [] (normDotSegs g.data true) = globToks g from rfl]
    cases ht : translateToks g (globToks g) 0 with
    | ok r => simp [ht, hg]
    | error e => simp [ht, hg]

theorem glob_error_glob {g : String} {e : MalformedGlobError}
    (h : glob_to_grep_pattern g = .error e) : e.glob = g := by
  by_cases hg : String.mk (normDotSegs g.data true) = ""
  · simp [glob_to_grep_pattern, hg] at h
  · simp only [glob_to_grep_pattern, mk_data] at h
    rw [if_neg hg] at h
    rw [show globSplit [] (normDotSegs g.data true) = globToks g from rfl] at h
    cases ht : translateToks g (globToks g) 0 with
    | ok r => rw [ht] at h; simp at h
    | error e' =>
      rw [ht] at h
      simp at h
      exact h ▸ translateToks_error_glob g _ 0 e' ht

theorem glob_error_reason {g : String} {e : MalformedGlobError}
    (h : glob_to_grep_pattern g = .error e) :
    (e.reason = GlobReason.unclosedBrace ↔ ∀ p, p <+: globToks g → 0 ≤ deltaSum p) := by
  by_cases hg : String.mk (normDotSegs g.data true) = ""
  · simp [glob_to_grep_pattern, hg] at h
  · simp only [glob_to_grep_pattern, mk_data] at h
    rw [if_neg hg] at h
    rw [show globSplit [] (normDotSegs g.data true) = globToks g from rfl] at h
    cases ht : translateToks g (globToks g) 0 with
    | ok r => rw [ht] at h; simp at h
    | error e' =>
      rw [ht] at h
      simp at h
      have hr := translateToks_error_reason g (globToks g) 0 e' ht
      simp only [Nat.cast_zero, zero_add] at hr
      exact h ▸ hr

/-- Claim C2: `glob_to_grep_pattern` fails with a `MalformedGlobError` iff
the brace nesting of the (normalized, tokenized) glob is inconsistent:
the error always carries the offending original glob string; the reason is
`unclosedBrace` exactly when no prefix of the token walk drives the depth
negative (i.e. no unexpected `\x7d` was met, so a group stayed open), and
`unexpectedClosingBrace` otherwise; compilation succeeds iff the glob
normalizes to empty or every prefix keeps the depth nonnegative with final
depth zero.  Nested braces (`\x7ba,b\x7bc,d\x7d\x7d`) compile via the depth
counter, and the two doc-tested error cases yield their distinct reasons. -/
theorem claim_C2 :
    (∀ (g : String) (e : MalformedGlobError), glob_to_grep_pattern g = .error e →
      e.glob = g) ∧
    (∀ g : String, (∃ r, glob_to_grep_pattern g = .ok r) ↔
      (String.mk (normDotSegs g.data true) = "" ∨ bracesBalanced (globToks g) 0)) ∧
    (∀ (g : String) (e : MalformedGlobError), glob_to_grep_pattern g = .error e →
      (e.reason = GlobReason.unclosedBrace ↔ ∀ p, p <+: globToks g → 0 ≤ deltaSum p)) ∧
    glob_to_grep_pattern "\x7ba,b\x7bc,d\x7d\x7d" = .ok "^(a|b(c|d))(/|$)" ∧
    glob_to_grep_pattern "a\x7bb" = .error ⟨GlobReason.unclosedBrace, "a\x7bb"⟩ ∧
    glob_to_grep_pattern "a\x7d" = .error ⟨GlobReason.unexpectedClosingBrace, "a\x7d"⟩ :=
  ⟨fun _ _ h => glob_error_glob h, glob_ok_iff, fun _ _ h => glob_error_reason h,
    by decide, by decide, by decide⟩

theorem claim_C2_witness :
    ((⟨GlobReason.unclosedBrace, "a\x7bb"⟩ : MalformedGlobError).glob = "a\x7bb") ∧
    (((⟨GlobReason.unexpectedClosingBrace, "a\x7d"⟩ : MalformedGlobError).reason =
        GlobReason.unclosedBrace) ↔ ∀ p, p <+: globToks "a\x7d" → 0 ≤ deltaSum p) :=
  ⟨claim_C2.1 "a\x7bb" ⟨GlobReason.unclosedBrace, "a\x7bb"⟩ (by decide),
    claim_C2.2.2.1 "a\x7d" ⟨GlobReason.unexpectedClosingBrace, "a\x7d"⟩ (by decide)⟩

/-- Claim C4: `glob_to_grep_pattern` maps `""` and `"."` to the empty
string, maps `"./a/./b"` to `^a\/b(/|$)`, and in general deletes path
segments equal to `.` at the start of the glob or right after a `/`
before translating (the last three conjuncts state the deletion equations
of the normalizer). -/
theorem claim_C4 :
    glob_to_grep_pattern "" = .ok "" ∧
    glob_to_grep_pattern "." = .ok "" ∧
    glob_to_grep_pattern "./a/./b" = .ok "^a\\/b(/|$)" ∧
    (∀ cs, normDotSegs ('.' :: '/' :: cs) true = normDotSegs cs true) ∧
    (∀ (b : Bool) (cs : List Char),
      normDotSegs ('/' :: '.' :: '/' :: cs) b = '/' :: normDotSegs cs true) ∧
    normDotSegs ['.'] true = [] := by
  refine ⟨by decide, by decide, by decide, fun cs => rfl, fun b cs => ?_, rfl⟩
  simp [normDotSegs]

/-! ## Claim C3: meta-free globs translate to their escaped literal -/

def globMetaChars : List Char := ['*', '?', ',', '{', '}', '[']

theorem matchDelim_none {c : Char} {rest : List Char} (h : c ∉ globMetaChars) :
    matchDelim (c :: rest) = none := by
  simp [globMetaChars] at h
  obtain ⟨h1, h2, h3, h4, h5, h6⟩ := h
  simp [matchDelim, h1, h2, h3, h4, h5, h6]

theorem globSplitF_noMeta : ∀ (f : Nat) (acc cs : List Char), cs.length ≤ f →
    (∀ c ∈ cs, c ∉ globMetaChars) →
    globSplitF f acc cs = [GlobTok.lit (String.mk (acc ++ cs))] := by
  intro f
  induction f with
  | zero =>
    intro acc cs hf _
    cases cs with
    | nil => simp [globSplitF]
    | cons c cs' => simp at hf
  | succ f ih =>
    intro acc cs hf hmeta
    cases cs with
    | nil => simp [globSplitF]
    | cons c cs' =>
      have hc : c ∉ globMetaChars := hmeta c (by simp)
      simp only [globSplitF, matchDelim_none hc]
      rw [ih (acc ++ [c]) cs' (by simp at hf; omega)
        (fun x hx => hmeta x (by simp [hx]))]
      simp

/-- Claim C3 (amended: the glob must be nonempty and contain no removable
`.` segment anywhere): a glob with none of the meta characters
`* ? , \x7b \x7d [` and left unchanged by `.`-segment normalization
compiles to `^` + `re.escape` of the glob + `(/|$)`. -/
theorem claim_C3 (g : String) (h0 : g ≠ "") (hmeta : ∀ c ∈ g.data, c ∉ globMetaChars)
    (hdot : normDotSegs g.data true = g.data) :
    glob_to_grep_pattern g = .ok ("^" ++ reEscape g ++ "(/|$)") := by
  obtain ⟨l⟩ := g
  simp only [mk_data] at hmeta hdot
  simp only [glob_to_grep_pattern, mk_data, hdot]
  rw [if_neg h0]
  unfold globSplit
  rw [globSplitF_noMeta l.length [] l (le_refl _) hmeta]
  simp only [List.nil_append]
  simp [translateToks, String.append_empty]

/-- Counterexample to claim C3 as stated: the empty glob satisfies the
claim's hypotheses vacuously but compiles to `""`, not `^(/|$)`; likewise
`a/.` has no meta characters and no leading `.` segment, yet its trailing
`.` segment is deleted, so the result is not `^` + escaped(`a/.`) +
`(/|$)`. -/
theorem claim_C3_counterexample :
    glob_to_grep_pattern "" = .ok "" ∧
    (Except.ok "" : Except MalformedGlobError String) ≠
      .ok ("^" ++ reEscape "" ++ "(/|$)") ∧
    glob_to_grep_pattern "a/." = .ok "^a\\/(/|$)" ∧
    (Except.ok "^a\\/(/|$)" : Except MalformedGlobError String) ≠
      .ok ("^" ++ reEscape "a/." ++ "(/|$)") :=
  ⟨by decide, by decide, by decide, by decide⟩

theorem claim_C3_witness :
    glob_to_grep_pattern "src/hello.txt" =
      .ok ("^" ++ reEscape "src/hello.txt" ++ "(/|$)") :=
  claim_C3 "src/hello.txt" (by decide) (by decide) (by decide)

/-! ## Argument classifier

Embeds `ArgParser.__init__` (the specification's `classify`).  The
`self.*` attributes and the four loop-local variables become one state
record; the `next_arg_processor` closure (one of three list-append
continuations) becomes `NextArgDest`.  Python indexing `arg[0]`/`arg[1]`
is embedded as `pyCharAt` returning `Option Char` and the step propagates
a potential `IndexError` as `none`, so classifier totality (claim C1) is
the theorem that `none` is never reached. -/

def editor_flags : List String := ["--vim", "--gvim"]

def grep_default_matcher : String := "-E"

def grep_flags_matcher_select : String := "EFGP"

def grep_flags_suppress_implicit_pattern_arg : String := "ef"

def grep_flags_with_argument : String := "efmABCdD"

inductive NextArgDest where
  | toExcludeGlobs
  | toRevisions
  | toGrepArgs
deriving DecidableEq, Repr

structure ArgParseState where
  explain : Bool
  help : Bool
  showCmd : Bool
  version : Bool
  include_globs : List String
  exclude_globs : List String
  grep_args : List String
  editor : Option String
  grep_color_arg : String
  revisions : List String
  extension_globs : List String
  use_default_matcher : Bool
  next_arg_processor : Option NextArgDest
  awaiting_implicit_pattern_arg : Bool
deriving DecidableEq, Repr

def initState : ArgParseState where
  explain := false
  help := false
  showCmd := false
  version := false
  include_globs := []
  exclude_globs := []
  grep_args := []
  editor := none
  grep_color_arg := "--color"
  revisions := []
  extension_globs := []
  use_default_matcher := true
  next_arg_processor := none
  awaiting_implicit_pattern_arg := true

/-- Embeds Python `str.startswith` as prefix testing on character lists. -/
def listIsPrefix : List Char → List Char → Bool
  | [], _ => true
  | _ :: _, [] => false
  | p :: ps, c :: cs => p == c && listIsPrefix ps cs

/-- Embeds the Python slice `s[n:]`. -/
def strDrop (s : String) (n : Nat) : String := String.mk (s.data.drop n)

/-- Embeds Python indexing `s[i]`, `none` standing for `IndexError`. -/
def pyCharAt (s : String) (i : Nat) : Option Char := s.data.get? i

structure ScanResult where
  version : Bool
  awaiting : Bool
  use_default : Bool
  takeNext : Bool
deriving DecidableEq, Repr

/-- Embeds the `for i in range(1, len(arg))` scan over the characters of a
short-flag cluster (the list argument is `arg[1:]`): `V` sets the version
switch and `continue`s; a character in
`grep_flags_suppress_implicit_pattern_arg` clears the awaiting flag, else
one in `grep_flags_matcher_select` clears `use_default_matcher`; the first
character in `grep_flags_with_argument` `break`s, requesting the next
token as a grep argument exactly when it is the last character. -/
def scanShortFlags : List Char → Bool → Bool → Bool → ScanResult
  | [], v, a, u => ⟨v, a, u, false⟩
  | c :: rest, v, a, u =>
    if c = 'V' then scanShortFlags rest true a u
    else
      let a' := if grep_flags_suppress_implicit_pattern_arg.data.contains c then false else a
      let u' :=
        if grep_flags_suppress_implicit_pattern_arg.data.contains c then u
        else if grep_flags_matcher_select.data.contains c then false else u
      if grep_flags_with_argument.data.contains c then ⟨v, a', u', rest.isEmpty⟩
      else scanShortFlags rest v a' u'

/-- Embeds the `next_arg_processor(arg)` call: feed the token to the
pending continuation and clear it. -/
def feedNext (s : ArgParseState) (d : NextArgDest) (arg : String) : ArgParseState :=
  match d with
  | .toExcludeGlobs =>
    { s with exclude_globs := s.exclude_globs ++ [arg], next_arg_processor := none }
  | .toRevisions =>
    { s with revisions := s.revisions ++ [arg], next_arg_processor := none }
  | .toGrepArgs =>
    { s with grep_args := s.grep_args ++ [arg], next_arg_processor := none }

/-- Embeds the last three `elif`/`else` branches of the loop (implicit
pattern, extension shorthand, include glob), reached both when the token
does not look like a flag and when it is shorter than 2 characters. -/
def tailStep (s : ArgParseState) (arg : String) : ArgParseState :=
  if s.awaiting_implicit_pattern_arg then
    { s with awaiting_implicit_pattern_arg := false, grep_args := s.grep_args ++ [arg] }
  else if listIsPrefix ".".data arg.data && !(arg.data.contains '/') then
    { s with extension_globs := s.extension_globs ++ [arg] }
  else
    { s with include_globs := s.include_globs ++ [arg] }

/-- One iteration of the `for arg in args` loop of `ArgParser.__init__`,
with the branch chain in source order. -/
def argStep (s : ArgParseState) (arg : String) : Option ArgParseState :=
  match s.next_arg_processor with
  | some d => some (feedNext s d arg)
  | none =>
    if arg ∈ editor_flags then
      some { s with editor := some (String.mk (arg.data.dropWhile (fun c => c == '-'))) }
    else if arg = "--explain" then some { s with explain := true }
    else if arg = "--help" then some { s with help := true }
    else if arg = "--show" then some { s with showCmd := true }
    else if arg = "--version" then some { s with version := true }
    else if arg = "-X" then
      some { s with next_arg_processor := some NextArgDest.toExcludeGlobs }
    else if arg = "--color" ∨ listIsPrefix "--color=".data arg.data then
      some { s with grep_color_arg := arg }
    else if arg = "--rev" ∨ listIsPrefix "-r".data arg.data then
      if arg = "--rev" ∨ arg = "-r" then
        some { s with next_arg_processor := some NextArgDest.toRevisions }
      else
        some { s with revisions := s.revisions ++ [strDrop arg 2] }
    else if 2 ≤ arg.data.length then
      match pyCharAt arg 0 with
      | none => none
      | some c0 =>
        if c0 = '-' then
          match pyCharAt arg 1 with
          | none => none
          | some c1 =>
            if c1 = '-' then some { s with grep_args := s.grep_args ++ [arg] }
            else
              let r := scanShortFlags (arg.data.drop 1) s.version
                s.awaiting_implicit_pattern_arg s.use_default_matcher
              some { s with
                grep_args := s.grep_args ++ [arg],
                version := r.version,
                awaiting_implicit_pattern_arg := r.awaiting,
                use_default_matcher := r.use_default,
                next_arg_processor :=
                  if r.takeNext then some NextArgDest.toGrepArgs else none }
        else some (tailStep s arg)
    else some (tailStep s arg)

def runArgLoop : ArgParseState → List String → Option ArgParseState
  | s, [] => some s
  | s, a :: rest =>
    match argStep s a with
    | some s' => runArgLoop s' rest
    | none => none

/-- Embeds `'**{%s}' % ','.join(extension_globs)`. -/
def extGlobStr (exts : List String) : String :=
  "**\x7b" ++ String.intercalate "," exts ++ "\x7d"

/-- Embeds `glob.rstrip('/')`. -/
def rstripSlashes (g : String) : String :=
  String.mk ((g.data.reverse.dropWhile (fun c => c == '/')).reverse)

/-- Embeds the post-loop finalization: merge extension shorthands into the
include globs, then prepend the default matcher flag if no explicit
matcher-mode flag was scanned. -/
def finalizeArgs (s : ArgParseState) : ArgParseState :=
  let s1 :=
    if s.extension_globs.isEmpty then s
    else
      let ext := extGlobStr s.extension_globs
      if s.include_globs.isEmpty then { s with include_globs := [ext] }
      else
        { s with include_globs :=
            s.include_globs.map (fun g => rstripSlashes g ++ "/" ++ ext) }
  if s1.use_default_matcher then
    { s1 with grep_args := grep_default_matcher :: s1.grep_args }
  else s1

/-- The specification's `classify`: run the loop over the whole argument
vector, then finalize. -/
def classify (args : List String) : Option ArgParseState :=
  (runArgLoop initState args).map finalizeArgs

example : (classify ["hello"]).map (fun s => s.grep_args) = some ["-E", "hello"] := by
  decide
example : (classify ["hello", "--color"]).map (fun s => s.grep_color_arg) =
    some "--color" := by decide
example : (classify ["hello", "--color=always"]).map (fun s => s.grep_color_arg) =
    some "--color=always" := by decide
example : (classify ["hello", "-G"]).map (fun s => s.grep_args) =
    some ["hello", "-G"] := by decide
example : (classify ["--show", "hello", "--gvim"]).map
    (fun s => (s.editor, s.showCmd, s.grep_args)) =
    some (some "gvim", true, ["-E", "hello"]) := by decide
example : (classify ["pat", ".h", ".cpp"]).map (fun s => s.include_globs) =
    some ["**\x7b.h,.cpp\x7d"] := by decide
example : (classify ["pat", ".cpp", "src", "docs/"]).map (fun s => s.include_globs) =
    some ["src/**\x7b.cpp\x7d", "docs/**\x7b.cpp\x7d"] := by decide
example : (classify [".pattern", "glob1", ".extglob", "*.glob2", "*/glob3"]).map
    (fun s => (s.grep_args, s.include_globs)) =
    some (["-E", ".pattern"],
      ["glob1/**\x7b.extglob\x7d", "*.glob2/**\x7b.extglob\x7d",
        "*/glob3/**\x7b.extglob\x7d"]) := by decide
example : (classify ["-Ffpattern-file"]).map (fun s => s.grep_args) =
    some ["-Ffpattern-file"] := by decide
example : (classify ["-Ff", "pattern-file"]).map (fun s => s.grep_args) =
    some ["-Ff", "pattern-file"] := by decide
example : (classify ["-e", "pat1", "-e", "pat2", "path"]).map
    (fun s => (s.grep_args, s.include_globs)) =
    some (["-E", "-e", "pat1", "-e", "pat2"], ["path"]) := by decide
example : (classify ["-r", "ae279a85a0ad", "hello"]).map
    (fun s => (s.grep_args, s.revisions)) =
    some (["-E", "hello"], ["ae279a85a0ad"]) := by decide
example : (classify ["--rev", "ae279a85a0ad", "-r", ".", "hello"]).map
    (fun s => s.revisions) = some ["ae279a85a0ad", "."] := by decide
example : (classify ["-rae279a85a0ad", "-r.", "hello"]).map (fun s => s.revisions) =
    some ["ae279a85a0ad", "."] := by decide
example : (classify ["hello", "-GV"]).map (fun s => (s.grep_args, s.version)) =
    some (["hello", "-GV"], true) := by decide

theorem argStep_isSome (s : ArgParseState) (arg : String) : (argStep s arg).isSome := by
  unfold argStep
  cases hn : s.next_arg_processor with
  | some d => rfl
  | none =>
    by_cases h1 : arg ∈ editor_flags
    · simp [h1, apply_ite Option.isSome]
    by_cases h2 : arg = "--explain"
    · simp [h1, h2, apply_ite Option.isSome]
    by_cases h3 : arg = "--help"
    · simp [h1, h2, h3, apply_ite Option.isSome]
    by_cases h4 : arg = "--show"
    · simp [h1, h2, h3, h4, apply_ite Option.isSome]
    by_cases h5 : arg = "--version"
    · simp [h1, h2, h3, h4, h5, apply_ite Option.isSome]
    by_cases h6 : arg = "-X"
    · simp [h1, h2, h3, h4, h5, h6, apply_ite Option.isSome]
    by_cases h7 : arg = "--color" ∨ listIsPrefix "--color=".data arg.data
    · simp [h1, h2, h3, h4, h5, h6, h7, apply_ite Option.isSome]
    by_cases h8 : arg = "--rev" ∨ listIsPrefix "-r".data arg.data
    · simp only [h1, h2, h3, h4, h5, h6, h7, h8, if_true, if_false]
      simp [apply_ite Option.isSome]
    by_cases h9 : 2 ≤ arg.data.length
    · obtain ⟨c0, cs0, harg⟩ : ∃ c0 cs0, arg.data = c0 :: cs0 := by
        cases hd : arg.data with
        | nil => rw [hd] at h9; simp at h9
        | cons x xs => exact ⟨x, xs, rfl⟩
      obtain ⟨c1, cs1, harg1⟩ : ∃ c1 cs1, cs0 = c1 :: cs1 := by
        cases hd : cs0 with
        | nil => rw [hd] at harg; rw [harg] at h9; simp at h9
        | cons x xs => exact ⟨x, xs, rfl⟩
      subst harg1
      simp [h1, h2, h3, h4, h5, h6, h7, h8, h9, pyCharAt, harg,
        apply_ite Option.isSome]
    · simp [h1, h2, h3, h4, h5, h6, h7, h8, h9, apply_ite Option.isSome]
      left
      have hsl : arg.length = arg.data.length := rfl
      omega

theorem runArgLoop_isSome : ∀ (args : List String) (s : ArgParseState),
    (runArgLoop s args).isSome := by
  intro args
  induction args with
  | nil => intro s; rfl
  | cons a rest ih =>
    intro s
    have h := argStep_isSome s a
    cases hs : argStep s a with
    | some s' => simp [runArgLoop, hs, ih s']
    | none => rw [hs] at h; simp at h

/-- Claim C1: the classifier is total: for every argument vector,
`classify` yields some result.  In the embedding every Python sequence
access that could raise `IndexError` returns `Option` and propagates
failure, so this theorem states that every `arg[i]` access in
`ArgParser.__init__` is guarded and no error path exists. -/
theorem claim_C1 (args : List String) : (classify args).isSome := by
  unfold classify
  have h := runArgLoop_isSome args initState
  cases hr : runArgLoop initState args with
  | some s => simp
  | none => rw [hr] at h; simp at h

theorem mk_eq_iff (l : List Char) (s : String) : String.mk l = s ↔ l = s.data := by
  constructor
  · intro h
    rw [← h]
  · intro h
    cases s with
    | mk l2 =>
      simp at h
      rw [h]

/-- Claim C10: any token longer than two characters that starts with `-r`
is consumed by the revision branch — the token minus its first two
characters is appended to `revisions` and nothing else changes (in
particular the token never reaches `grep_args`), even when the token is a
cluster of standard matcher flags such as `-rn`; only the exact tokens
`-r` and `--rev` instead defer the value to the following token by setting
up the revisions continuation.  Stated for a step with no pending
continuation (a token fed to a pending continuation is a flag argument,
not a classified token). -/
theorem claim_C10 (s : ArgParseState) (c : Char) (rest : List Char)
    (hn : s.next_arg_processor = none) :
    argStep s (String.mk ('-' :: 'r' :: c :: rest)) =
      some { s with revisions :=
        s.revisions ++ [strDrop (String.mk ('-' :: 'r' :: c :: rest)) 2] } ∧
    strDrop (String.mk ('-' :: 'r' :: c :: rest)) 2 = String.mk (c :: rest) ∧
    argStep s "-r" =
      some { s with next_arg_processor := some NextArgDest.toRevisions } ∧
    argStep s "--rev" =
      some { s with next_arg_processor := some NextArgDest.toRevisions } := by
  refine ⟨?_, rfl, ?_, ?_⟩
  · unfold argStep
    rw [hn]
    simp [editor_flags, mk_eq_iff, listIsPrefix]
  · unfold argStep
    rw [hn]
    simp [editor_flags, listIsPrefix]
  · unfold argStep
    rw [hn]
    simp [editor_flags, listIsPrefix]

theorem claim_C10_witness :
    argStep initState (String.mk ['-', 'r', 'n']) =
      some { initState with revisions :=
        [strDrop (String.mk ['-', 'r', 'n']) 2] } ∧
    strDrop (String.mk ['-', 'r', 'n']) 2 = String.mk ['n'] ∧
    argStep initState "-r" =
      some { initState with next_arg_processor := some NextArgDest.toRevisions } ∧
    argStep initState "--rev" =
      some { initState with next_arg_processor := some NextArgDest.toRevisions } :=
  claim_C10 initState 'n' [] rfl

/-- Counterexample to claim C8 as stated: the `=`-suffixed form
`--rev=R` is NOT recognized as a revision flag (the branch tests
`arg == '--rev' or arg.startswith('-r')`, and `--rev=R` starts with
`--`, not `-r`): the value R is not appended to revisions; the whole
token is passed through to the matcher arguments instead. -/
theorem claim_C8_counterexample :
    (classify ["--rev=R", "p"]).map (fun s => (s.revisions, s.grep_args)) =
      some ([], ["-E", "--rev=R", "p"]) ∧
    ([] : List String) ≠ ["R"] :=
  ⟨by decide, by decide⟩

/-- Claim C8 (amended): the revision flag forms actually recognized are:
the exact tokens `--rev` and `-r`, which consume the following token as
the revision value via a continuation; and any other token starting with
`-r` (such as the abbreviated `-rREV`, including `-r=REV`), whose first
two characters are stripped and the remainder appended to revisions
immediately.  `--rev=REV` is not a revision form: it is passed through
verbatim to the matcher arguments.  `classify(["-r", "R1", "-r", "R2",
"hello"])` yields revisions `["R1", "R2"]`. -/
theorem claim_C8 (s : ArgParseState) (hn : s.next_arg_processor = none) :
    (∀ arg : String, arg = "--rev" ∨ arg = "-r" →
      argStep s arg =
        some { s with next_arg_processor := some NextArgDest.toRevisions }) ∧
    (∀ (c : Char) (rest : List Char),
      argStep s (String.mk ('-' :: 'r' :: c :: rest)) =
        some { s with revisions :=
          s.revisions ++ [strDrop (String.mk ('-' :: 'r' :: c :: rest)) 2] }) ∧
    (∀ v : List Char,
      argStep s (String.mk ('-' :: '-' :: 'r' :: 'e' :: 'v' :: '=' :: v)) =
        some { s with grep_args :=
          s.grep_args ++ [String.mk ('-' :: '-' :: 'r' :: 'e' :: 'v' :: '=' :: v)] }) ∧
    (classify ["-r", "R1", "-r", "R2", "hello"]).map
      (fun t => (t.revisions, t.grep_args)) =
      some (["R1", "R2"], ["-E", "hello"]) := by
  refine ⟨?_, ?_, ?_, by decide⟩
  · rintro arg (h | h) <;> subst h <;>
      (unfold argStep; rw [hn]; simp [editor_flags, listIsPrefix])
  · intro c rest
    unfold argStep
    rw [hn]
    simp [editor_flags, mk_eq_iff, listIsPrefix]
  · intro v
    unfold argStep
    rw [hn]
    simp [editor_flags, mk_eq_iff, listIsPrefix, pyCharAt]

theorem claim_C8_witness :
    argStep initState "--rev" =
      some { initState with next_arg_processor := some NextArgDest.toRevisions } ∧
    argStep initState (String.mk ['-', 'r', '1']) =
      some { initState with revisions := [strDrop (String.mk ['-', 'r', '1']) 2] } ∧
    argStep initState (String.mk ['-', '-', 'r', 'e', 'v', '=', 'R']) =
      some { initState with grep_args :=
        [String.mk ['-', '-', 'r', 'e', 'v', '=', 'R']] } := by
  obtain ⟨h1, h2, h3, _⟩ := claim_C8 initState rfl
  exact ⟨h1 "--rev" (Or.inl rfl), h2 '1' [], h3 ['R']⟩

/-! ## Claim C5: default matcher mode

The definition `scanSelectHit` states, following the specification's words, that the
character scan of a short-flag cluster meets an explicit matcher-mode
selection character (one of `EFGP`) before `break`ing on a
flag-with-argument character; `reachesShortScan` states that a token is
recognized (and scanned) as a short-flag cluster at all: no pending
continuation, none of the earlier branches fires, length at least 2, a
leading `-` not followed by a second `-`.  These spec-side definitions
are proved to agree with the step function below. -/

def scanSelectHit : List Char → Bool
  | [] => false
  | c :: rest =>
    if c = 'V' then scanSelectHit rest
    else if grep_flags_matcher_select.data.contains c then true
    else if grep_flags_with_argument.data.contains c then false
    else scanSelectHit rest

theorem scanShortFlags_use_default (cs : List Char) : ∀ v a u : Bool,
    (scanShortFlags cs v a u).use_default = (u && !scanSelectHit cs) := by
  induction cs with
  | nil => intro v a u; simp [scanShortFlags, scanSelectHit]
  | cons c rest ih =>
    intro v a u
    by_cases hV : c = 'V'
    · simp [scanShortFlags, scanSelectHit, hV, ih]
    by_cases hsub : c ∈ grep_flags_suppress_implicit_pattern_arg.data
    · have hsub' : c = 'e' ∨ c = 'f' := by
        simpa [grep_flags_suppress_implicit_pattern_arg] using hsub
      have hsel : c ∉ grep_flags_matcher_select.data := by
        rcases hsub' with h | h <;> subst h <;> decide
      have hwa : c ∈ grep_flags_with_argument.data := by
        rcases hsub' with h | h <;> subst h <;> decide
      simp [scanShortFlags, scanSelectHit, hV, hsub, hsel, hwa]
    by_cases hsel : c ∈ grep_flags_matcher_select.data
    · have hwa : c ∉ grep_flags_with_argument.data := by
        have hsel' : c = 'E' ∨ c = 'F' ∨ c = 'G' ∨ c = 'P' := by
          simpa [grep_flags_matcher_select] using hsel
        rcases hsel' with h | h | h | h <;> subst h <;> decide
      simp [scanShortFlags, scanSelectHit, hV, hsub, hsel, hwa, ih]
    by_cases hwa : c ∈ grep_flags_with_argument.data
    · simp [scanShortFlags, scanSelectHit, hV, hsub, hsel, hwa]
    · simp [scanShortFlags, scanSelectHit, hV, hsub, hsel, hwa, ih]

def reachesShortScan (s : ArgParseState) (arg : String) : Bool :=
  s.next_arg_processor.isNone &&
  !(decide (arg ∈ editor_flags)) &&
  !(decide (arg = "--explain")) && !(decide (arg = "--help")) &&
  !(decide (arg = "--show")) && !(decide (arg = "--version")) &&
  !(decide (arg = "-X")) &&
  !(decide (arg = "--color" ∨ listIsPrefix "--color=".data arg.data = true)) &&
  !(decide (arg = "--rev" ∨ listIsPrefix "-r".data arg.data = true)) &&
  decide (2 ≤ arg.data.length) &&
  decide (pyCharAt arg 0 = some '-') && !(decide (pyCharAt arg 1 = some '-'))

theorem tailStep_use_default (s : ArgParseState) (arg : String) :
    (tailStep s arg).use_default_matcher = s.use_default_matcher := by
  unfold tailStep
  split
  · rfl
  split <;> rfl

theorem argStep_use_default (s : ArgParseState) (arg : String) (s' : ArgParseState)
    (h : argStep s arg = some s') :
    s'.use_default_matcher =
      (s.use_default_matcher &&
        !(reachesShortScan s arg && scanSelectHit (arg.data.drop 1))) := by
  unfold argStep at h
  cases hn : s.next_arg_processor with
  | some d =>
    rw [hn] at h
    simp at h
    subst h
    cases d <;> simp [feedNext, reachesShortScan, hn]
  | none =>
    rw [hn] at h
    by_cases h1 : arg ∈ editor_flags
    · rw [if_pos h1] at h
      simp at h
      subst h
      simp [reachesShortScan, h1]
    by_cases h2 : arg = "--explain"
    · rw [if_neg h1, if_pos h2] at h
      simp at h
      subst h
      simp [reachesShortScan, h2]
    by_cases h3 : arg = "--help"
    · rw [if_neg h1, if_neg h2, if_pos h3] at h
      simp at h
      subst h
      simp [reachesShortScan, h3]
    by_cases h4 : arg = "--show"
    · rw [if_neg h1, if_neg h2, if_neg h3, if_pos h4] at h
      simp at h
      subst h
      simp [reachesShortScan, h4]
    by_cases h5 : arg = "--version"
    · rw [if_neg h1, if_neg h2, if_neg h3, if_neg h4, if_pos h5] at h
      simp at h
      subst h
      simp [reachesShortScan, h5]
    by_cases h6 : arg = "-X"
    · rw [if_neg h1, if_neg h2, if_neg h3, if_neg h4, if_neg h5, if_pos h6] at h
      simp at h
      subst h
      simp [reachesShortScan, h6]
    by_cases h7 : arg = "--color" ∨ listIsPrefix "--color=".data arg.data = true
    · rw [if_neg h1, if_neg h2, if_neg h3, if_neg h4, if_neg h5, if_neg h6,
        if_pos h7] at h
      simp at h
      subst h
      simp [reachesShortScan, h7]
    by_cases h8 : arg = "--rev" ∨ listIsPrefix "-r".data arg.data = true
    · rw [if_neg h1, if_neg h2, if_neg h3, if_neg h4, if_neg h5, if_neg h6,
        if_neg h7, if_pos h8] at h
      by_cases h8i : arg = "--rev" ∨ arg = "-r"
      · rw [if_pos h8i] at h
        simp at h
        subst h
        simp [reachesShortScan, h8]
      · rw [if_neg h8i] at h
        simp at h
        subst h
        simp [reachesShortScan, h8]
    by_cases h9 : 2 ≤ arg.data.length
    · obtain ⟨c0, cs0, harg⟩ : ∃ c0 cs0, arg.data = c0 :: cs0 := by
        cases hd : arg.data with
        | nil => rw [hd] at h9; simp at h9
        | cons x xs => exact ⟨x, xs, rfl⟩
      obtain ⟨c1, cs1, harg1⟩ : ∃ c1 cs1, cs0 = c1 :: cs1 := by
        cases hd : cs0 with
        | nil => rw [hd] at harg; rw [harg] at h9; simp at h9
        | cons x xs => exact ⟨x, xs, rfl⟩
      subst harg1
      rw [if_neg h1, if_neg h2, if_neg h3, if_neg h4, if_neg h5, if_neg h6,
        if_neg h7, if_neg h8, if_pos h9] at h
      simp only [pyCharAt, harg, List.get?] at h
      by_cases hc0 : c0 = '-'
      · rw [if_pos hc0] at h
        by_cases hc1 : c1 = '-'
        · rw [if_pos hc1] at h
          simp at h
          subst h
          have hd1 : decide (pyCharAt arg 1 = some '-') = true := by
            simp [pyCharAt, harg, hc1]
          simp [reachesShortScan, hd1]
        · rw [if_neg hc1] at h
          simp at h
          subst h
          have hreach : reachesShortScan s arg = true := by
            push_neg at h7 h8
            obtain ⟨h7a, h7b⟩ := h7
            obtain ⟨h8a, h8b⟩ := h8
            rw [harg] at h7b h8b
            subst hc0
            simp only [show ("--color=".data : List Char) =
                ['-', '-', 'c', 'o', 'l', 'o', 'r', '='] from rfl,
              show ("-r".data : List Char) = ['-', 'r'] from rfl] at h7b h8b
            simp [reachesShortScan, hn, h1, h2, h3, h4, h5, h6, h9,
              pyCharAt, harg, hc1, h7a, h7b, h8a, h8b]
          simp only [hreach, Bool.true_and]
          rw [harg]
          simp [scanShortFlags_use_default]
      · rw [if_neg hc0] at h
        simp at h
        subst h
        have hd0 : decide (pyCharAt arg 0 = some '-') = false := by
          simp [pyCharAt, harg, hc0]
        simp [reachesShortScan, hd0, tailStep_use_default]
    · rw [if_neg h1, if_neg h2, if_neg h3, if_neg h4, if_neg h5, if_neg h6,
        if_neg h7, if_neg h8, if_neg h9] at h
      simp at h
      subst h
      have h9' : ¬ 2 ≤ arg.length := by
        have hsl : arg.length = arg.data.length := rfl
        omega
      simp [reachesShortScan, h9, h9', tailStep_use_default]

/-- Whether some token of the vector is recognized as an explicit
matcher-mode selection during the left-to-right pass starting in state
`s` (spec-side definition). -/
def seenSelect : ArgParseState → List String → Bool
  | _, [] => false
  | s, a :: rest =>
    (reachesShortScan s a && scanSelectHit (a.data.drop 1)) ||
      (match argStep s a with
       | some s' => seenSelect s' rest
       | none => false)

theorem runArgLoop_use_default : ∀ (args : List String) (s s' : ArgParseState),
    runArgLoop s args = some s' →
    s'.use_default_matcher = (s.use_default_matcher && !seenSelect s args) := by
  intro args
  induction args with
  | nil =>
    intro s s' h
    simp [runArgLoop] at h
    subst h
    simp [seenSelect]
  | cons a rest ih =>
    intro s s' h
    cases hs : argStep s a with
    | none => simp [runArgLoop, hs] at h
    | some s1 =>
      simp only [runArgLoop, hs] at h
      have h1 := argStep_use_default s a s1 hs
      have h2 := ih s1 s' h
      rw [h2, h1]
      simp only [seenSelect, hs]
      cases s.use_default_matcher <;>
        cases hb : (reachesShortScan s a && scanSelectHit (a.data.drop 1)) <;> simp

theorem finalizeArgs_grep_args (s : ArgParseState) :
    (finalizeArgs s).grep_args =
      if s.use_default_matcher then grep_default_matcher :: s.grep_args
      else s.grep_args := by
  unfold finalizeArgs
  by_cases he : s.extension_globs.isEmpty <;> by_cases hi : s.include_globs.isEmpty <;>
    simp [he, hi] <;> split <;> rfl

/-- Claim C5: for every argument vector, the default matcher-mode flag
`-E` is prepended as the first element of the matcher arguments iff no
token of the vector was recognized as an explicit matcher-mode selection
(a scanned short-flag character among `EFGP`); in particular
`classify(["hello", "-G"])` yields matcher arguments `["hello", "-G"]`
with no default-mode flag prepended. -/
theorem claim_C5 :
    (∀ (args : List String) (sl : ArgParseState),
      runArgLoop initState args = some sl →
      classify args = some (finalizeArgs sl) ∧
      (finalizeArgs sl).grep_args =
        (if seenSelect initState args then sl.grep_args
         else grep_default_matcher :: sl.grep_args)) ∧
    (classify ["hello", "-G"]).map (fun t => t.grep_args) =
      some ["hello", "-G"] := by
  constructor
  · intro args sl h
    refine ⟨by simp [classify, h], ?_⟩
    have h1 := runArgLoop_use_default args initState sl h
    rw [finalizeArgs_grep_args, h1]
    cases seenSelect initState args <;> simp [initState]
  · decide

/-- The loop state reached on `["hello", "-G"]` (used by the witness of
claim C5). -/
def claimC5WitnessState : ArgParseState where
  explain := false
  help := false
  showCmd := false
  version := false
  include_globs := []
  exclude_globs := []
  grep_args := ["hello", "-G"]
  editor := none
  grep_color_arg := "--color"
  revisions := []
  extension_globs := []
  use_default_matcher := false
  next_arg_processor := none
  awaiting_implicit_pattern_arg := false

theorem claim_C5_witness :
    classify ["hello", "-G"] = some (finalizeArgs claimC5WitnessState) ∧
    (finalizeArgs claimC5WitnessState).grep_args =
      (if seenSelect initState ["hello", "-G"] then claimC5WitnessState.grep_args
       else grep_default_matcher :: claimC5WitnessState.grep_args) :=
  claim_C5.1 ["hello", "-G"] claimC5WitnessState (by decide)

/-! ## Claim C6: the implicit pattern slot -/

/-- Whether the character scan of a short-flag cluster meets an
explicit-pattern-supplying character (`e` or `f`) before `break`ing
(spec-side definition). -/
def scanSuppressHit : List Char → Bool
  | [] => false
  | c :: rest =>
    if c = 'V' then scanSuppressHit rest
    else if grep_flags_suppress_implicit_pattern_arg.data.contains c then true
    else if grep_flags_with_argument.data.contains c then false
    else scanSuppressHit rest

theorem scanShortFlags_awaiting (cs : List Char) : ∀ v a u : Bool,
    (scanShortFlags cs v a u).awaiting = (a && !scanSuppressHit cs) := by
  induction cs with
  | nil => intro v a u; simp [scanShortFlags, scanSuppressHit]
  | cons c rest ih =>
    intro v a u
    by_cases hV : c = 'V'
    · simp [scanShortFlags, scanSuppressHit, hV, ih]
    by_cases hsub : c ∈ grep_flags_suppress_implicit_pattern_arg.data
    · have hsub' : c = 'e' ∨ c = 'f' := by
        simpa [grep_flags_suppress_implicit_pattern_arg] using hsub
      have hwa : c ∈ grep_flags_with_argument.data := by
        rcases hsub' with h | h <;> subst h <;> decide
      simp [scanShortFlags, scanSuppressHit, hV, hsub, hwa]
    by_cases hwa : c ∈ grep_flags_with_argument.data
    · simp [scanShortFlags, scanSuppressHit, hV, hsub, hwa]
    · simp [scanShortFlags, scanSuppressHit, hV, hsub, hwa, ih]

/-- Whether a token reaches the final three branches of the loop (implicit
pattern / extension shorthand / include glob): no pending continuation,
no earlier branch fires, and the token is not a flag-shaped token
(length ≥ 2 starting with `-`). -/
def reachesTail (s : ArgParseState) (arg : String) : Bool :=
  s.next_arg_processor.isNone &&
  !(decide (arg ∈ editor_flags)) &&
  !(decide (arg = "--explain")) && !(decide (arg = "--help")) &&
  !(decide (arg = "--show")) && !(decide (arg = "--version")) &&
  !(decide (arg = "-X")) &&
  !(decide (arg = "--color" ∨ listIsPrefix "--color=".data arg.data = true)) &&
  !(decide (arg = "--rev" ∨ listIsPrefix "-r".data arg.data = true)) &&
  !(decide (2 ≤ arg.data.length) && decide (pyCharAt arg 0 = some '-'))

theorem tailStep_awaiting (s : ArgParseState) (arg : String) :
    (tailStep s arg).awaiting_implicit_pattern_arg = false := by
  unfold tailStep
  by_cases ha : s.awaiting_implicit_pattern_arg = true
  · rw [if_pos ha]
  · have ha' : s.awaiting_implicit_pattern_arg = false := by simpa using ha
    rw [if_neg ha]
    split <;> simp [ha']

theorem argStep_awaiting (s : ArgParseState) (arg : String) (s' : ArgParseState)
    (h : argStep s arg = some s') :
    s'.awaiting_implicit_pattern_arg =
      (s.awaiting_implicit_pattern_arg &&
        !(reachesShortScan s arg && scanSuppressHit (arg.data.drop 1)) &&
        !(reachesTail s arg)) := by
  unfold argStep at h
  cases hn : s.next_arg_processor with
  | some d =>
    rw [hn] at h
    simp at h
    subst h
    cases d <;> simp [feedNext, reachesShortScan, reachesTail, hn]
  | none =>
    rw [hn] at h
    by_cases h1 : arg ∈ editor_flags
    · rw [if_pos h1] at h
      simp at h
      subst h
      simp [reachesShortScan, reachesTail, h1]
    by_cases h2 : arg = "--explain"
    · rw [if_neg h1, if_pos h2] at h
      simp at h
      subst h
      simp [reachesShortScan, reachesTail, h2]
    by_cases h3 : arg = "--help"
    · rw [if_neg h1, if_neg h2, if_pos h3] at h
      simp at h
      subst h
      simp [reachesShortScan, reachesTail, h3]
    by_cases h4 : arg = "--show"
    · rw [if_neg h1, if_neg h2, if_neg h3, if_pos h4] at h
      simp at h
      subst h
      simp [reachesShortScan, reachesTail, h4]
    by_cases h5 : arg = "--version"
    · rw [if_neg h1, if_neg h2, if_neg h3, if_neg h4, if_pos h5] at h
      simp at h
      subst h
      simp [reachesShortScan, reachesTail, h5]
    by_cases h6 : arg = "-X"
    · rw [if_neg h1, if_neg h2, if_neg h3, if_neg h4, if_neg h5, if_pos h6] at h
      simp at h
      subst h
      simp [reachesShortScan, reachesTail, h6]
    by_cases h7 : arg = "--color" ∨ listIsPrefix "--color=".data arg.data = true
    · rw [if_neg h1, if_neg h2, if_neg h3, if_neg h4, if_neg h5, if_neg h6,
        if_pos h7] at h
      simp at h
      subst h
      simp [reachesShortScan, reachesTail, h7]
    by_cases h8 : arg = "--rev" ∨ listIsPrefix "-r".data arg.data = true
    · rw [if_neg h1, if_neg h2, if_neg h3, if_neg h4, if_neg h5, if_neg h6,
        if_neg h7, if_pos h8] at h
      by_cases h8i : arg = "--rev" ∨ arg = "-r"
      · rw [if_pos h8i] at h
        simp at h
        subst h
        simp [reachesShortScan, reachesTail, h8]
      · rw [if_neg h8i] at h
        simp at h
        subst h
        simp [reachesShortScan, reachesTail, h8]
    by_cases h9 : 2 ≤ arg.data.length
    · obtain ⟨c0, cs0, harg⟩ : ∃ c0 cs0, arg.data = c0 :: cs0 := by
        cases hd : arg.data with
        | nil => rw [hd] at h9; simp at h9
        | cons x xs => exact ⟨x, xs, rfl⟩
      obtain ⟨c1, cs1, harg1⟩ : ∃ c1 cs1, cs0 = c1 :: cs1 := by
        cases hd : cs0 with
        | nil => rw [hd] at harg; rw [harg] at h9; simp at h9
        | cons x xs => exact ⟨x, xs, rfl⟩
      subst harg1
      rw [if_neg h1, if_neg h2, if_neg h3, if_neg h4, if_neg h5, if_neg h6,
        if_neg h7, if_neg h8, if_pos h9] at h
      simp only [pyCharAt, harg, List.get?] at h
      by_cases hc0 : c0 = '-'
      · rw [if_pos hc0] at h
        by_cases hc1 : c1 = '-'
        · rw [if_pos hc1] at h
          simp at h
          subst h
          have hd1 : decide (pyCharAt arg 1 = some '-') = true := by
            simp [pyCharAt, harg, hc1]
          have hd0 : decide (pyCharAt arg 0 = some '-') = true := by
            simp [pyCharAt, harg, hc0]
          have hd9 : decide (2 ≤ arg.data.length) = true := by
              simp only [decide_eq_true_eq]
              exact h9
          simp [reachesShortScan, reachesTail, hd1, hd0, hd9, h9,
            show 2 ≤ arg.length from h9]
        · rw [if_neg hc1] at h
          simp at h
          subst h
          have hreach : reachesShortScan s arg = true := by
            push_neg at h7 h8
            obtain ⟨h7a, h7b⟩ := h7
            obtain ⟨h8a, h8b⟩ := h8
            rw [harg] at h7b h8b
            subst hc0
            simp only [show ("--color=".data : List Char) =
                ['-', '-', 'c', 'o', 'l', 'o', 'r', '='] from rfl,
              show ("-r".data : List Char) = ['-', 'r'] from rfl] at h7b h8b
            simp [reachesShortScan, hn, h1, h2, h3, h4, h5, h6, h9,
              pyCharAt, harg, hc1, h7a, h7b, h8a, h8b]
          have htail : reachesTail s arg = false := by
            have hd0 : decide (pyCharAt arg 0 = some '-') = true := by
              simp [pyCharAt, harg, hc0]
            have hd9 : decide (2 ≤ arg.data.length) = true := by
              simp only [decide_eq_true_eq]
              exact h9
            unfold reachesTail
            rw [show (decide (2 ≤ arg.data.length) &&
              decide (pyCharAt arg 0 = some '-')) = true by rw [hd9, hd0]; rfl]
            simp
          simp only [hreach, htail, Bool.true_and, Bool.not_false, Bool.and_true]
          rw [harg]
          simp [scanShortFlags_awaiting]
      · rw [if_neg hc0] at h
        simp at h
        subst h
        have hrt : reachesTail s arg = true := by
          push_neg at h7 h8
          obtain ⟨h7a, h7b⟩ := h7
          obtain ⟨h8a, h8b⟩ := h8
          rw [harg] at h7b h8b
          simp only [show ("--color=".data : List Char) =
              ['-', '-', 'c', 'o', 'l', 'o', 'r', '='] from rfl,
            show ("-r".data : List Char) = ['-', 'r'] from rfl] at h7b h8b
          simp [reachesTail, hn, h1, h2, h3, h4, h5, h6, pyCharAt, harg, hc0,
            h7a, h7b, h8a, h8b]
        simp [hrt, tailStep_awaiting]
    · rw [if_neg h1, if_neg h2, if_neg h3, if_neg h4, if_neg h5, if_neg h6,
        if_neg h7, if_neg h8, if_neg h9] at h
      simp at h
      subst h
      have hrt : reachesTail s arg = true := by
        push_neg at h7 h8
        obtain ⟨h7a, h7b⟩ := h7
        obtain ⟨h8a, h8b⟩ := h8
        simp [reachesTail, hn, h1, h2, h3, h4, h5, h6, h7a, h7b, h8a, h8b,
          show ¬ 2 ≤ arg.length from h9]
      simp [hrt, tailStep_awaiting]

/-- Claim C6: a token reaching the tail of the branch chain (not consumed
as a flag, flag argument, or tool option) while the implicit pattern is
still awaited IS the implicit pattern: it is appended to the matcher
arguments and the awaiting flag is cleared (first conjunct); the awaiting
flag never comes back (second conjunct), so no later token is taken as an
implicit pattern; a scanned flag cluster containing an
explicit-pattern-supplying character (`e` or `f`) clears the slot (third
conjunct); and `classify(["-e", "pat1", "-e", "pat2", "path"])` puts
`path` into the include globs, not the matcher arguments (fourth
conjunct). -/
theorem claim_C6 :
    (∀ (s : ArgParseState) (arg : String),
      s.next_arg_processor = none →
      arg ∉ editor_flags →
      arg ≠ "--explain" → arg ≠ "--help" → arg ≠ "--show" → arg ≠ "--version" →
      arg ≠ "-X" →
      ¬(arg = "--color" ∨ listIsPrefix "--color=".data arg.data = true) →
      ¬(arg = "--rev" ∨ listIsPrefix "-r".data arg.data = true) →
      ¬(2 ≤ arg.data.length ∧ pyCharAt arg 0 = some '-') →
      s.awaiting_implicit_pattern_arg = true →
      argStep s arg = some { s with
        awaiting_implicit_pattern_arg := false
        grep_args := s.grep_args ++ [arg] }) ∧
    (∀ (s : ArgParseState) (arg : String) (s' : ArgParseState),
      argStep s arg = some s' → s.awaiting_implicit_pattern_arg = false →
      s'.awaiting_implicit_pattern_arg = false) ∧
    (∀ (s : ArgParseState) (arg : String) (s' : ArgParseState),
      argStep s arg = some s' →
      reachesShortScan s arg = true → scanSuppressHit (arg.data.drop 1) = true →
      s'.awaiting_implicit_pattern_arg = false) ∧
    (classify ["-e", "pat1", "-e", "pat2", "path"]).map
      (fun t => (t.grep_args, t.include_globs)) =
      some (["-E", "-e", "pat1", "-e", "pat2"], ["path"]) := by
  refine ⟨?_, ?_, ?_, by decide⟩
  · intro s arg hn h1 h2 h3 h4 h5 h6 h7 h8 h10 hav
    unfold argStep
    rw [hn]
    rw [if_neg h1, if_neg h2, if_neg h3, if_neg h4, if_neg h5, if_neg h6,
      if_neg h7, if_neg h8]
    by_cases h9 : 2 ≤ arg.data.length
    · rw [if_pos h9]
      obtain ⟨c0, cs0, harg⟩ : ∃ c0 cs0, arg.data = c0 :: cs0 := by
        cases hd : arg.data with
        | nil => rw [hd] at h9; simp at h9
        | cons x xs => exact ⟨x, xs, rfl⟩
      have hc0 : ¬ c0 = '-' := by
        intro hh
        exact h10 ⟨h9, by simp [pyCharAt, harg, hh]⟩
      rw [show pyCharAt arg 0 = some c0 by simp [pyCharAt, harg]]
      simp [hc0, tailStep, hav, hn]
    · rw [if_neg h9]
      simp [tailStep, hav, hn]
  · intro s arg s' h hav
    rw [argStep_awaiting s arg s' h, hav]
    simp
  · intro s arg s' h hr hsup
    rw [argStep_awaiting s arg s' h, hr, hsup]
    simp

theorem claim_C6_witness :
    argStep initState "hello" = some { initState with
      awaiting_implicit_pattern_arg := false
      grep_args := ["hello"] } ∧
    ({ claimC5WitnessState with include_globs := ["path"]
       } : ArgParseState).awaiting_implicit_pattern_arg = false ∧
    ({ initState with
        grep_args := ["-e"]
        awaiting_implicit_pattern_arg := false
        next_arg_processor := some NextArgDest.toGrepArgs
       } : ArgParseState).awaiting_implicit_pattern_arg = false :=
  ⟨claim_C6.1 initState "hello" rfl (by decide) (by decide) (by decide) (by decide)
      (by decide) (by decide) (by decide) (by decide) (by decide) rfl,
    claim_C6.2.1 claimC5WitnessState "path"
      { claimC5WitnessState with include_globs := ["path"] } (by decide) rfl,
    claim_C6.2.2.1 initState "-e"
      { initState with
        grep_args := ["-e"]
        awaiting_implicit_pattern_arg := false
        next_arg_processor := some NextArgDest.toGrepArgs }
      (by decide) (by decide) (by decide)⟩

/-! ## Claim C7: extension shorthand merging -/

theorem finalizeArgs_include_globs (s : ArgParseState)
    (hne : s.extension_globs ≠ []) :
    (finalizeArgs s).include_globs =
      (if s.include_globs.isEmpty then [extGlobStr s.extension_globs]
       else s.include_globs.map
         (fun g => rstripSlashes g ++ "/" ++ extGlobStr s.extension_globs)) := by
  unfold finalizeArgs
  have he : ¬ s.extension_globs.isEmpty = true := by simpa using hne
  by_cases hi : s.include_globs.isEmpty <;>
    simp [he, hi] <;> split <;> rfl

/-- Claim C7: when at least one extension shorthand was accumulated,
finalization builds the one synthetic glob `**{...}` over all accumulated
extensions (joined by commas); it becomes the sole include glob when none
were collected, and otherwise every collected include glob `g` is replaced
by `g` minus trailing slashes, then `/`, then the synthetic glob.
`classify(["hello", ".h", ".cpp"])` yields include globs
`["**{.h,.cpp}"]`. -/
theorem claim_C7 :
    (∀ s : ArgParseState, s.extension_globs ≠ [] →
      (finalizeArgs s).include_globs =
        (if s.include_globs.isEmpty then [extGlobStr s.extension_globs]
         else s.include_globs.map
           (fun g => rstripSlashes g ++ "/" ++ extGlobStr s.extension_globs))) ∧
    extGlobStr [".h", ".cpp"] = "**\x7b.h,.cpp\x7d" ∧
    (classify ["hello", ".h", ".cpp"]).map
      (fun t => (t.grep_args, t.include_globs)) =
      some (["-E", "hello"], ["**\x7b.h,.cpp\x7d"]) :=
  ⟨finalizeArgs_include_globs, by decide, by decide⟩

theorem claim_C7_witness :
    (finalizeArgs { initState with
      grep_args := ["hello"]
      awaiting_implicit_pattern_arg := false
      extension_globs := [".h", ".cpp"] }).include_globs =
      (if ({ initState with
          grep_args := ["hello"]
          awaiting_implicit_pattern_arg := false
          extension_globs := [".h", ".cpp"] } : ArgParseState).include_globs.isEmpty
       then [extGlobStr [".h", ".cpp"]]
       else ({ initState with
          grep_args := ["hello"]
          awaiting_implicit_pattern_arg := false
          extension_globs := [".h", ".cpp"] } : ArgParseState).include_globs.map
         (fun g => rstripSlashes g ++ "/" ++ extGlobStr [".h", ".cpp"])) :=
  claim_C7.1 { initState with
    grep_args := ["hello"]
    awaiting_implicit_pattern_arg := false
    extension_globs := [".h", ".cpp"] } (by decide)

/-! ## Claim C9: token conservation -/

/-- Total number of elements accumulated by the loop in its five list
destinations. -/
def loopListLen (s : ArgParseState) : Nat :=
  s.grep_args.length + s.include_globs.length + s.exclude_globs.length +
    s.revisions.length + s.extension_globs.length

/-- Whether a step consumes its token into a scalar field or a pending
continuation without appending to any list destination: editor flags, the
four boolean switches, `-X`, the color flag, and the exact `--rev`/`-r`
forms (spec-side definition). -/
def stepFieldOnly (s : ArgParseState) (arg : String) : Bool :=
  s.next_arg_processor.isNone &&
  (decide (arg ∈ editor_flags) || decide (arg = "--explain") ||
    decide (arg = "--help") || decide (arg = "--show") ||
    decide (arg = "--version") || decide (arg = "-X") ||
    decide (arg = "--color" ∨ listIsPrefix "--color=".data arg.data = true) ||
    decide (arg = "--rev") || decide (arg = "-r"))

def fieldOnlyCount : ArgParseState → List String → Nat
  | _, [] => 0
  | s, a :: rest =>
    (if stepFieldOnly s a then 1 else 0) +
      (match argStep s a with
       | some s' => fieldOnlyCount s' rest
       | none => 0)

theorem listIsPrefix_self : ∀ l : List Char, listIsPrefix l l = true := by
  intro l
  induction l with
  | nil => rfl
  | cons c cs ih => simp [listIsPrefix, ih]

theorem tailStep_loopListLen (s : ArgParseState) (arg : String) :
    loopListLen (tailStep s arg) = loopListLen s + 1 := by
  unfold tailStep
  split
  · simp [loopListLen]
    omega
  split <;> simp [loopListLen] <;> omega

theorem argStep_loopListLen (s : ArgParseState) (arg : String) (s' : ArgParseState)
    (h : argStep s arg = some s') :
    loopListLen s' = loopListLen s + (if stepFieldOnly s arg then 0 else 1) := by
  unfold argStep at h
  cases hn : s.next_arg_processor with
  | some d =>
    rw [hn] at h
    simp at h
    subst h
    cases d <;> simp [feedNext, loopListLen, stepFieldOnly, hn] <;> omega
  | none =>
    rw [hn] at h
    by_cases h1 : arg ∈ editor_flags
    · rw [if_pos h1] at h
      simp at h
      subst h
      simp [loopListLen, stepFieldOnly, hn, h1]
    by_cases h2 : arg = "--explain"
    · rw [if_neg h1, if_pos h2] at h
      simp at h
      subst h
      simp [loopListLen, stepFieldOnly, hn, h2]
    by_cases h3 : arg = "--help"
    · rw [if_neg h1, if_neg h2, if_pos h3] at h
      simp at h
      subst h
      simp [loopListLen, stepFieldOnly, hn, h3]
    by_cases h4 : arg = "--show"
    · rw [if_neg h1, if_neg h2, if_neg h3, if_pos h4] at h
      simp at h
      subst h
      simp [loopListLen, stepFieldOnly, hn, h4]
    by_cases h5 : arg = "--version"
    · rw [if_neg h1, if_neg h2, if_neg h3, if_neg h4, if_pos h5] at h
      simp at h
      subst h
      simp [loopListLen, stepFieldOnly, hn, h5]
    by_cases h6 : arg = "-X"
    · rw [if_neg h1, if_neg h2, if_neg h3, if_neg h4, if_neg h5, if_pos h6] at h
      simp at h
      subst h
      simp [loopListLen, stepFieldOnly, hn, h6]
    by_cases h7 : arg = "--color" ∨ listIsPrefix "--color=".data arg.data = true
    · rw [if_neg h1, if_neg h2, if_neg h3, if_neg h4, if_neg h5, if_neg h6,
        if_pos h7] at h
      simp at h
      subst h
      simp [loopListLen, stepFieldOnly, hn, h7]
    by_cases h8 : arg = "--rev" ∨ listIsPrefix "-r".data arg.data = true
    · rw [if_neg h1, if_neg h2, if_neg h3, if_neg h4, if_neg h5, if_neg h6,
        if_neg h7, if_pos h8] at h
      by_cases h8i : arg = "--rev" ∨ arg = "-r"
      · rw [if_pos h8i] at h
        simp at h
        subst h
        have hf : stepFieldOnly s arg = true := by
          rcases h8i with hh | hh <;> simp [stepFieldOnly, hn, hh]
        simp [loopListLen, hf]
      · rw [if_neg h8i] at h
        simp at h
        subst h
        push_neg at h8i
        have hf : stepFieldOnly s arg = false := by
          simp [stepFieldOnly, hn, h1, h2, h3, h4, h5, h6, h7, h8i.1, h8i.2]
        simp [loopListLen, hf]
        omega
    all_goals
      have h8' := h8
      push_neg at h8'
      have h8r : arg ≠ "-r" := by
        intro hh
        exact h8'.2 (by rw [hh]; exact listIsPrefix_self _)
      have hf : stepFieldOnly s arg = false := by
        simp [stepFieldOnly, hn, h1, h2, h3, h4, h5, h6, h7, h8'.1, h8r]
    by_cases h9 : 2 ≤ arg.data.length
    · obtain ⟨c0, cs0, harg⟩ : ∃ c0 cs0, arg.data = c0 :: cs0 := by
        cases hd : arg.data with
        | nil => rw [hd] at h9; simp at h9
        | cons x xs => exact ⟨x, xs, rfl⟩
      obtain ⟨c1, cs1, harg1⟩ : ∃ c1 cs1, cs0 = c1 :: cs1 := by
        cases hd : cs0 with
        | nil => rw [hd] at harg; rw [harg] at h9; simp at h9
        | cons x xs => exact ⟨x, xs, rfl⟩
      subst harg1
      rw [if_neg h1, if_neg h2, if_neg h3, if_neg h4, if_neg h5, if_neg h6,
        if_neg h7, if_neg h8, if_pos h9] at h
      simp only [pyCharAt, harg, List.get?] at h
      by_cases hc0 : c0 = '-'
      · rw [if_pos hc0] at h
        by_cases hc1 : c1 = '-'
        · rw [if_pos hc1] at h
          simp at h
          subst h
          simp [loopListLen, hf]
          omega
        · rw [if_neg hc1] at h
          simp at h
          subst h
          simp [loopListLen, hf]
          omega
      · rw [if_neg hc0] at h
        simp at h
        subst h
        simp [hf, tailStep_loopListLen]
    · rw [if_neg h1, if_neg h2, if_neg h3, if_neg h4, if_neg h5, if_neg h6,
        if_neg h7, if_neg h8, if_neg h9] at h
      simp at h
      subst h
      simp [hf, tailStep_loopListLen]

theorem runArgLoop_loopListLen : ∀ (args : List String) (s s' : ArgParseState),
    runArgLoop s args = some s' →
    loopListLen s' + fieldOnlyCount s args = loopListLen s + args.length := by
  intro args
  induction args with
  | nil =>
    intro s s' h
    simp [runArgLoop] at h
    subst h
    simp [fieldOnlyCount]
  | cons a rest ih =>
    intro s s' h
    cases hs : argStep s a with
    | none => simp [runArgLoop, hs] at h
    | some s1 =>
      simp only [runArgLoop, hs] at h
      have h1 := argStep_loopListLen s a s1 hs
      have h2 := ih s1 s' h
      simp only [fieldOnlyCount, hs]
      by_cases hf : stepFieldOnly s a <;> simp [hf] at h1 ⊢ <;> omega

/-- The count the specification's token-conservation property sums:
final matcher arguments + raw (pre-extension-merge) include globs +
exclude globs + revisions + editor (0 or 1).  Spec-side definition,
written from the claim's words. -/
def specDistributedCount (sl fin : ArgParseState) : Nat :=
  fin.grep_args.length + sl.include_globs.length + fin.exclude_globs.length +
    fin.revisions.length + (if fin.editor.isSome then 1 else 0)

/-- Number of tokens consumed as arguments of a preceding flag (fed to a
pending continuation).  Spec-side definition. -/
def flagArgTokenCount : ArgParseState → List String → Nat
  | _, [] => 0
  | s, a :: rest =>
    (if s.next_arg_processor.isSome then 1 else 0) +
      (match argStep s a with
       | some s' => flagArgTokenCount s' rest
       | none => 0)

/-- Counterexample to claim C9 as stated: on `["--color", "--color"]`
no token is consumed as a flag argument, yet only one element (the
prepended default matcher flag) is distributed across the fields the
claim counts (matcherArgs + raw includeGlobs + excludeGlobs + revisions +
editor), so the claimed count equation `1 = 2 - 0` fails: switch-like
tokens (here the color flag, likewise `--explain` etc. and extension
shorthands) are consumed into scalar fields the claim assigns zero
contribution. -/
theorem claim_C9_counterexample :
    (runArgLoop initState ["--color", "--color"]).map
      (fun sl => specDistributedCount sl (finalizeArgs sl)) = some 1 ∧
    flagArgTokenCount initState ["--color", "--color"] = 0 ∧
    (1 : Nat) ≠ (["--color", "--color"] : List String).length - 0 :=
  ⟨by decide, by decide, by decide⟩

/-- Claim C9 (amended): every token either appends exactly one element to
exactly one of the five loop accumulators (matcher arguments before the
default-flag prepend, raw include globs, exclude globs, revisions,
extension shorthands) or is consumed as a field-only token (editor flags,
the four switches, the color flag, and the value-awaiting flags `-X`,
`-r`, `--rev`); flag-argument pairs contribute their argument token to a
list (so the pair counts once beyond the flag itself).  Hence the sum of
the accumulator lengths plus the number of field-only tokens equals the
input token count. -/
theorem claim_C9 (args : List String) (s' : ArgParseState)
    (h : runArgLoop initState args = some s') :
    loopListLen s' + fieldOnlyCount initState args = args.length := by
  have h0 := runArgLoop_loopListLen args initState s' h
  simpa [initState, loopListLen] using h0

theorem claim_C9_witness :
    loopListLen { initState with
      grep_args := ["hello"]
      awaiting_implicit_pattern_arg := false } +
      fieldOnlyCount initState ["hello"] = (["hello"] : List String).length :=
  claim_C9 ["hello"] { initState with
    grep_args := ["hello"]
    awaiting_implicit_pattern_arg := false } (by decide)
